import Mathlib

/- Verification development for the chatsite HTTP request logger with
   WebSocket-based browser fingerprinting (Express + SQLite + ws).

   The server keeps one SQLite table `logs(id AUTOINCREMENT, method, url,
   headers, body, timestamp)`.  Two producers append to it: a logging
   middleware that runs on every HTTP request, and a WebSocket message
   handler that stores fingerprint payloads.  A JSON reader at /logs
   re-parses the serialized columns.  The definitions below embed those
   handlers; JS platform builtins (JSON.parse / JSON.stringify, the SQLite
   engine) are modelled by their contracts, as the sources use them as
   black boxes. -/

namespace Chatsite

/-- JSON values as produced by JSON.parse.  Numbers are carried opaquely as
integers (no numeric computation happens anywhere in the server core);
objects are finite lists of key/value fields, keys unique when the value
came from JSON.parse. -/
inductive Json where
  | null
  | bool (b : Bool)
  | num (n : Int)
  | str (s : String)
  | arr (items : List Json)
  | obj (fields : List (String × Json))
deriving Repr

/-- Text stored in a TEXT column of the `logs` table, classified by how
JSON.parse behaves on it.  JSON.stringify of a JS value `j` yields text
that parses back to `j`; the empty string and non-JSON text make
JSON.parse throw.  `notJson s` stands for nonempty text that is not valid
JSON (the empty string has its own constructor because the middleware
stores it as a sentinel and readers test its truthiness). -/
inductive DbText where
  | empty
  | jsonOf (j : Json)
  | notJson (s : String)
deriving Repr

/-- JSON.parse on stored text: succeeds exactly on serialized JSON values.
JSON.parse of the empty string or of non-JSON text throws, modelled as
`none`. -/
def jsonParse : DbText → Option Json
  | .empty => none
  | .jsonOf j => some j
  | .notJson _ => none

/-- JS truthiness of a stored text value: the empty string is falsy, any
other text is truthy (JSON.stringify never returns the empty string). -/
def dbTruthy : DbText → Bool
  | .empty => false
  | .jsonOf _ => true
  | .notJson _ => true

/-- One row of the `logs` table as bound by the INSERT statements: the
`url` column holds the JS value bound for the url parameter (`none` when
the handler binds `undefined`, which SQLite stores as NULL). -/
structure Row where
  method : String
  url : Option Json
  headers : DbText
  body : DbText
  timestamp : String
deriving Repr

/-- The `logs` table: rows tagged with their assigned id, plus the next id
the AUTOINCREMENT primary key will hand out.  A freshly created table
starts handing out id 1. -/
structure Store where
  nextId : Nat
  rows : List (Nat × Row)
deriving Repr

/-- An empty, freshly created `logs` table. -/
def Store.emptyStore : Store := ⟨1, []⟩

/-- INSERT INTO logs: the AUTOINCREMENT key assigns the next sequential id
and the row is appended in acceptance order. -/
def Store.append (st : Store) (r : Row) : Store :=
  ⟨st.nextId + 1, st.rows ++ [(st.nextId, r)]⟩

/-- A whole sequence of accepted appends against an initially empty table,
in the order the store serialized them (any interleaving of the two
producers flattens to such a sequence). -/
def appendAll (rs : List Row) : Store :=
  List.foldl Store.append Store.emptyStore rs

/-- The ids assigned by a sequence of appends, in acceptance order. -/
def assignedIds (rs : List Row) : List Nat :=
  ((appendAll rs).rows).map Prod.fst

/-- An inbound Express request as seen by the middleware: `originalUrl` is
the full request path including the query string, `path` is the
query-stripped path Express routes on, `headers` is the header mapping,
and `body` is the parsed body left by the express.json collaborator
(`none` when the request carried no decodable body, i.e. `req.body` is
undefined). -/
structure Request where
  method : String
  originalUrl : String
  path : String
  headers : List (String × Json)
  body : Option Json
deriving Repr

/-- JS truthiness of a JSON value (`body && ...` in the middleware). -/
def jsTruthy : Json → Bool
  | .null => false
  | .bool b => b
  | .num n => n != 0
  | .str s => s != ""
  | .arr _ => true
  | .obj _ => true

/-- Object.keys(v).length for a parsed JSON value: own enumerable keys of
an object are its fields, of an array its indices, of a string its
character indices; primitives have none. -/
def jsKeysCount : Json → Nat
  | .obj fields => fields.length
  | .arr items => items.length
  | .str s => s.length
  | .null => 0
  | .bool _ => 0
  | .num _ => 0

/-- The middleware body column:
`body && Object.keys(body).length ? JSON.stringify(body) : ""` — a missing
or empty body is stored as the empty-string sentinel, anything with keys
is serialized. -/
def bodyStrOf : Option Json → DbText
  | none => .empty
  | some b => if jsTruthy b && jsKeysCount b != 0 then .jsonOf b else .empty

/-- The row the logging middleware builds from a request (index.js, the
`app.use` logger): method and originalUrl verbatim, headers serialized
with JSON.stringify, body via the empty-string sentinel rule, timestamp
the ISO string taken when the middleware observed the request. -/
def mkRow (req : Request) (now : String) : Row :=
  { method := req.method
  , url := some (.str req.originalUrl)
  , headers := .jsonOf (.obj req.headers)
  , body := bodyStrOf req.body
  , timestamp := now }

/-- Property access `v.k` on a parsed JSON value: defined field lookup on
objects, `undefined` (`none`) on everything else.  Objects coming from
JSON.parse have unique keys, so first-match lookup is exact. -/
def jsGetField (v : Json) (k : String) : Option Json :=
  match v with
  | .obj fields => (fields.find? (fun p => p.fst == k)).map Prod.snd
  | _ => none

/-- Remove every binding of key `k` from an object field list (the rest
pattern of `const \x7b origin, ...data \x7d = msg.data` copies all own
enumerable keys except the listed one). -/
def jsObjRemove (k : String) (fields : List (String × Json)) :
    List (String × Json) :=
  fields.filter (fun p => p.fst != k)

/-- Own enumerable properties of a string value, as JS rest-spread sees
them: index keys mapped to one-character strings. -/
def strIndexFields (s : String) : List (String × Json) :=
  s.data.enum.map (fun p => (toString p.fst, Json.str (String.mk [p.snd])))

/-- Own enumerable properties of an array value: index keys mapped to the
elements (length is not enumerable). -/
def arrIndexFields (items : List Json) : List (String × Json) :=
  items.enum.map (fun p => (toString p.fst, p.snd))

/-- The destructuring `const \x7b origin, ...data \x7d = msg.data` of the
WebSocket handler.  Destructuring `undefined` or `null` throws a
TypeError (`Except.error`); any other value is object-coerced: `origin`
becomes the origin property (or `undefined`) and `data` collects the
remaining own enumerable properties. -/
def jsDestructureOrigin (v : Option Json) :
    Except Unit (Option Json × List (String × Json)) :=
  match v with
  | none => .error ()
  | some .null => .error ()
  | some (.obj fields) =>
      .ok (jsGetField (.obj fields) "origin", jsObjRemove "origin" fields)
  | some (.str s) => .ok (none, strIndexFields s)
  | some (.arr items) => .ok (none, arrIndexFields items)
  | some (.bool _) => .ok (none, [])
  | some (.num _) => .ok (none, [])

/-- The WebSocket message handler (index.js lines 334 to 355): parse the
incoming text, and when `msg.type === "fingerprint"` destructure
`msg.data` and insert `["WS", origin, "\x7b\x7d", JSON.stringify(data),
now]`.  A JSON.parse or destructuring throw is caught by the surrounding
try/catch, so those paths insert nothing.  The handler never calls
ws.close, so the returned flag (did the handler close the channel) is
always false. -/
def wsOnMessage (message : DbText) (now : String) (st : Store) :
    Store × Bool :=
  match jsonParse message with
  | none => (st, false)
  | some msg =>
    match jsGetField msg "type" with
    | some (.str t) =>
      if t = "fingerprint" then
        match jsDestructureOrigin (jsGetField msg "data") with
        | .error _ => (st, false)
        | .ok (origin, data) =>
            (st.append
              { method := "WS"
              , url := origin
              , headers := .jsonOf (.obj [])
              , body := .jsonOf (.obj data)
              , timestamp := now }, false)
      else (st, false)
    | _ => (st, false)

/-- Re-parse of the headers column in the /logs JSON reader:
`JSON.parse(r.headers || "\x7b\x7d")` — a falsy (empty) column falls back
to the empty-object text before parsing; the parse itself is unguarded,
failure throws (`none`). -/
def readHeaders (t : DbText) : Option Json :=
  jsonParse (if dbTruthy t then t else .jsonOf (.obj []))

/-- Re-parse of the body column in the /logs JSON reader:
`r.body ? JSON.parse(r.body) : \x7b\x7d` — an empty column yields the
empty object without parsing; otherwise the unguarded parse may throw
(`none`). -/
def readBody (t : DbText) : Option Json :=
  if dbTruthy t then jsonParse t else some (.obj [])

/-- One element of the machine-readable /logs result: the row with
headers and body re-parsed back to structured values. -/
structure MappedRow where
  method : String
  url : Option Json
  headers : Json
  body : Json
  timestamp : String
deriving Repr

/-- The per-row mapping of the /logs JSON branch.  The object literal
re-parses headers then body with unguarded JSON.parse; a throw on either
aborts the mapping (`none`). -/
def mapRow (r : Row) : Option MappedRow := do
  let h ← readHeaders r.headers
  let b ← readBody r.body
  pure { method := r.method, url := r.url, headers := h, body := b
       , timestamp := r.timestamp }

/-- Response payloads the modelled handlers send. -/
inductive HttpPayload where
  | text (s : String)
  | jsonError (message : String)
  | jsonRows (rows : List MappedRow)
deriving Repr

/-- An HTTP response as the handlers build it. -/
structure HttpResponse where
  status : Nat
  contentType : String
  payload : HttpPayload
deriving Repr

/-- The `rows.map(...)` of the machine-readable GET /logs branch: each row
is re-parsed with unguarded JSON.parse, and a throw on any row aborts the
whole map (no later row is reached and no partial list survives). -/
def mapRows : List Row → Option (List MappedRow)
  | [] => some []
  | r :: rest => do
    let m ← mapRow r
    let ms ← mapRows rest
    pure (m :: ms)

/-- The machine-readable branch of GET /logs.  The argument is the result
of the whole-table SELECT (`db.all`): an error invokes
`res.status(500).json(\x7berror: err.message\x7d)`; otherwise the mapped
rows are sent as JSON, and a re-parse throw inside the mapping escapes
the handler so no response is produced at all (outer `none`). -/
def getLogsJson (dbResult : Except String (List Row)) :
    Option HttpResponse :=
  match dbResult with
  | .error err => some ⟨500, "application/json", .jsonError err⟩
  | .ok rows =>
    match mapRows rows with
    | none => none
    | some result => some ⟨200, "application/json", .jsonRows result⟩

/-- The GET /robots.txt handler: `res.type("text/plain")` then
`res.send` of the static disallow rule (res.send defaults to status
200). -/
def robotsHandler : HttpResponse :=
  ⟨200, "text/plain", .text "User-agent: *\nDisallow: /logs"⟩

/-- Synchronous actions a handler issues, in program order.  `dbRun` is a
fire-and-forget INSERT (the sqlite3 call takes a completion callback the
code never waits on), `dbAll` issues the whole-table SELECT,
`awaitStorage` would be a blocking wait on storage completion (no handler
in the source ever performs one), `callNext` invokes the next
middleware/route stage, `send` writes the HTTP response. -/
inductive Action where
  | dbRun (r : Row)
  | dbAll
  | awaitStorage
  | callNext
  | send (resp : HttpResponse)
deriving Repr

/-- The logging middleware in program order: build the row, issue the
INSERT, and immediately call next() — no await between them. -/
def loggerTrace (req : Request) (now : String) : List Action :=
  [.dbRun (mkRow req now), .callNext]

/-- Synchronous actions of the route layer reached after the middleware:
GET /robots.txt sends the static rule, GET /logs and GET / issue the
whole-table SELECT and then suspend until its callback runs (responses of
those callbacks are modelled by getLogsJson); unmatched requests fall
through to the framework default. -/
def routeTrace (req : Request) : List Action :=
  if req.method = "GET" then
    if req.path = "/robots.txt" then [.send robotsHandler]
    else if req.path = "/logs" then [.dbAll]
    else if req.path = "/" then [.dbAll]
    else []
  else []

/-- The whole Express pipeline for one request: app.use registers the
logging middleware ahead of every route, so its trace precedes the
matched route handler for every method and path. -/
def pipelineTrace (req : Request) (now : String) : List Action :=
  loggerTrace req now ++ routeTrace req

/-- The row the WebSocket handler inserts for a fingerprint payload whose
parsed form is the object with the given fields. -/
def wsRowOf (fields : List (String × Json)) (now : String) : Row :=
  { method := "WS"
  , url := jsGetField (Json.obj fields) "origin"
  , headers := .jsonOf (.obj [])
  , body := .jsonOf (.obj (jsObjRemove "origin" fields))
  , timestamp := now }

/-- A stored row whose body text is not valid JSON (written by something
other than this program; the table does not validate columns). -/
def corruptRow : Row :=
  { method := "GET", url := some (.str "/a"), headers := .jsonOf (.obj [])
  , body := .notJson "not json", timestamp := "t1" }

/-- A well-formed stored row, as the middleware writes for a bodyless GET. -/
def okRow : Row :=
  { method := "GET", url := some (.str "/b"), headers := .jsonOf (.obj [])
  , body := .empty, timestamp := "t2" }

/-- Rows of a fold of appends over any starting store: each accepted row
gets the next sequential id. -/
theorem foldl_append_rows (rs : List Row) (st : Store) :
    (List.foldl Store.append st rs).rows
      = st.rows ++ (List.range' st.nextId rs.length).zip rs := by
  induction rs generalizing st with
  | nil => simp
  | cons r rest ih =>
    simp only [List.foldl_cons, ih, Store.append, List.length_cons,
      List.range'_succ, List.zip_cons_cons, List.append_assoc,
      List.cons_append, List.nil_append]

/-- Mapping a row list fails as a whole when any single row fails. -/
theorem mapRows_none_of_mem :
    ∀ rows : List Row, (∃ r ∈ rows, mapRow r = none) → mapRows rows = none := by
  intro rows
  induction rows with
  | nil => rintro ⟨r, hr, _⟩; cases hr
  | cons a rest ih =>
    rintro ⟨r, hr, hnone⟩
    rcases List.mem_cons.mp hr with rfl | hmem
    · simp [mapRows, hnone]
    · rcases h : mapRow a with _ | b
      · simp [mapRows, h]
      · simp [mapRows, h, ih ⟨r, hmem, hnone⟩]

/-- C3: for any sequence of N appends into an initially empty log store,
from any interleaving of the two producers, the assigned ids are exactly
1..N with no gaps or duplicates, strictly increasing in the order the
store accepted the appends. -/
theorem C3_monotonic_ids (rs : List Row) :
    assignedIds rs = List.range' 1 rs.length
    ∧ List.Chain' (· < ·) (assignedIds rs)
    ∧ (assignedIds rs).Nodup
    ∧ (∀ i, i ∈ assignedIds rs ↔ 1 ≤ i ∧ i ≤ rs.length) := by
  have hids : assignedIds rs = List.range' 1 rs.length := by
    unfold assignedIds appendAll
    rw [foldl_append_rows]
    simp only [Store.emptyStore, List.nil_append]
    exact List.map_fst_zip _ _ (by simp)
  refine ⟨hids, ?_, ?_, ?_⟩
  · rw [hids]
    exact (List.pairwise_lt_range' 1 rs.length).chain'
  · rw [hids]
    exact List.nodup_range' 1 rs.length
  · intro i
    rw [hids, List.mem_range'_1]
    omega

/-- C5: for every inbound request (any method, any path), the logging
middleware issues exactly one append of the record built from the
request fields and its observation timestamp, then invokes the next stage
ahead of any route handler, and never waits on storage. -/
theorem C5_middleware_logs_then_proceeds (req : Request) (now : String) :
    pipelineTrace req now
        = Action.dbRun (mkRow req now) :: Action.callNext :: routeTrace req
    ∧ (mkRow req now).method = req.method
    ∧ (mkRow req now).url = some (.str req.originalUrl)
    ∧ (mkRow req now).headers = .jsonOf (.obj req.headers)
    ∧ (mkRow req now).body = bodyStrOf req.body
    ∧ (mkRow req now).timestamp = now
    ∧ Action.awaitStorage ∉ pipelineTrace req now := by
  refine ⟨rfl, rfl, rfl, rfl, rfl, rfl, ?_⟩
  simp only [pipelineTrace, loggerTrace, routeTrace, List.mem_append,
    List.mem_cons, List.not_mem_nil]
  split_ifs <;> simp

/-- C6: when the whole-table read serving the machine-readable /logs
listing fails, the endpoint answers 500 carrying the storage error, not
an empty or partial listing. -/
theorem C6_read_failure_is_500 (err : String) :
    getLogsJson (.error err)
      = some ⟨500, "application/json", .jsonError err⟩ := rfl

/-- C8: GET /robots.txt sends a plain-text response whose body is the
static disallow rule for the logs path. -/
theorem C8_robots_txt (originalUrl : String) (hs : List (String × Json))
    (b : Option Json) :
    routeTrace { method := "GET", originalUrl := originalUrl
               , path := "/robots.txt", headers := hs, body := b }
        = [Action.send robotsHandler]
    ∧ robotsHandler.status = 200
    ∧ robotsHandler.contentType = "text/plain"
    ∧ robotsHandler.payload = .text "User-agent: *\nDisallow: /logs" := by
  exact ⟨rfl, rfl, rfl, rfl⟩

/-- C1: for any JSON object payload P (unique keys, as JSON.parse
guarantees) sent over the channel as the envelope with type
"fingerprint", the handler appends exactly one record: method "WS", url
the origin property of P, headers text that re-parses to the empty
mapping, body text that re-parses to P with the origin key removed. -/
theorem C1_payload_roundtrip (fields : List (String × Json)) (now : String)
    (st : Store) (_hkeys : (fields.map Prod.fst).Nodup) :
    wsOnMessage
        (DbText.jsonOf (Json.obj
          [("type", Json.str "fingerprint"), ("data", Json.obj fields)]))
        now st
      = (st.append (wsRowOf fields now), false)
    ∧ (st.append (wsRowOf fields now)).rows
        = st.rows ++ [(st.nextId, wsRowOf fields now)]
    ∧ (wsRowOf fields now).method = "WS"
    ∧ (wsRowOf fields now).url = jsGetField (Json.obj fields) "origin"
    ∧ jsonParse (wsRowOf fields now).headers = some (Json.obj [])
    ∧ jsonParse (wsRowOf fields now).body
        = some (Json.obj (jsObjRemove "origin" fields)) := by
  exact ⟨rfl, rfl, rfl, rfl, rfl, rfl⟩

/-- C1 witness: the Scenario B payload, evaluated concretely. -/
theorem C1_payload_roundtrip_witness :
    (([("origin", Json.str "/"), ("userAgent", Json.str "X")].map
        (Prod.fst (α := String) (β := Json))).Nodup)
    ∧ wsOnMessage
        (DbText.jsonOf (Json.obj
          [("type", Json.str "fingerprint"),
           ("data", Json.obj
             [("origin", Json.str "/"), ("userAgent", Json.str "X")])]))
        "T" Store.emptyStore
      = (Store.emptyStore.append
          (wsRowOf [("origin", Json.str "/"), ("userAgent", Json.str "X")]
            "T"), false) :=
  ⟨by simp,
   (C1_payload_roundtrip
      [("origin", Json.str "/"), ("userAgent", Json.str "X")] "T"
      Store.emptyStore (by simp)).1⟩

/-- C2: a channel message that does not parse as JSON, or whose parsed
type field is not the string "fingerprint", inserts nothing into the
store and does not make the handler close the channel. -/
theorem C2_malformed_message_tolerated (m : DbText) (now : String)
    (st : Store)
    (h : ∀ j, jsonParse m = some j →
        jsGetField j "type" ≠ some (Json.str "fingerprint")) :
    wsOnMessage m now st = (st, false) := by
  unfold wsOnMessage
  rcases hm : jsonParse m with _ | j
  · rfl
  · dsimp only
    rcases hg : jsGetField j "type" with _ | v
    · rfl
    · cases v with
      | str t =>
        have hne : t ≠ "fingerprint" := by
          intro he
          exact h j hm (by rw [hg, he])
        simp [hne]
      | null => rfl
      | bool b => rfl
      | num n => rfl
      | arr items => rfl
      | obj fs => rfl

/-- C2 witness: the two spec examples, a non-JSON text and a ping
envelope, both leave the store unchanged and the channel open. -/
theorem C2_malformed_message_tolerated_witness :
    (∀ j, jsonParse (DbText.notJson "not json") = some j →
        jsGetField j "type" ≠ some (Json.str "fingerprint"))
    ∧ wsOnMessage (DbText.notJson "not json") "T" Store.emptyStore
        = (Store.emptyStore, false)
    ∧ (∀ j, jsonParse (DbText.jsonOf (Json.obj [("type", Json.str "ping")]))
          = some j →
        jsGetField j "type" ≠ some (Json.str "fingerprint"))
    ∧ wsOnMessage (DbText.jsonOf (Json.obj [("type", Json.str "ping")]))
        "T" Store.emptyStore = (Store.emptyStore, false) := by
  have h1 : ∀ j, jsonParse (DbText.notJson "not json") = some j →
      jsGetField j "type" ≠ some (Json.str "fingerprint") := by
    intro j h
    cases h
  have h2 : ∀ j,
      jsonParse (DbText.jsonOf (Json.obj [("type", Json.str "ping")]))
        = some j →
      jsGetField j "type" ≠ some (Json.str "fingerprint") := by
    intro j h
    cases h
    simp [jsGetField]
  exact ⟨h1, C2_malformed_message_tolerated _ "T" _ h1,
         h2, C2_malformed_message_tolerated _ "T" _ h2⟩

/-- C9: a message that parses with type "fingerprint" but whose data
field cannot be destructured (absent or null) throws inside the guarded
handler: nothing is inserted and the channel stays open. -/
theorem C9_undestructurable_data_caught (m : DbText) (now : String)
    (st : Store) (j : Json)
    (hp : jsonParse m = some j)
    (ht : jsGetField j "type" = some (Json.str "fingerprint"))
    (hd : jsDestructureOrigin (jsGetField j "data") = .error ()) :
    wsOnMessage m now st = (st, false) := by
  simp [wsOnMessage, hp, ht, hd]

/-- C9 witness: the bare envelope with no data field. -/
theorem C9_undestructurable_data_caught_witness :
    jsonParse (DbText.jsonOf (Json.obj [("type", Json.str "fingerprint")]))
        = some (Json.obj [("type", Json.str "fingerprint")])
    ∧ jsGetField (Json.obj [("type", Json.str "fingerprint")]) "type"
        = some (Json.str "fingerprint")
    ∧ jsDestructureOrigin
        (jsGetField (Json.obj [("type", Json.str "fingerprint")]) "data")
        = .error ()
    ∧ wsOnMessage
        (DbText.jsonOf (Json.obj [("type", Json.str "fingerprint")]))
        "T" Store.emptyStore = (Store.emptyStore, false) :=
  ⟨rfl, rfl, rfl,
   C9_undestructurable_data_caught _ "T" _ _ rfl rfl rfl⟩

/-- C4: a request whose parsed body is absent or an empty object is
stored with the empty-string body sentinel (not the serialized empty
object), and the machine-readable reader re-parses that sentinel to the
empty object, so both cases read back as no content. -/
theorem C4_empty_body_sentinel (req : Request) (now : String)
    (h : req.body = none ∨ req.body = some (Json.obj [])) :
    (mkRow req now).body = DbText.empty
    ∧ DbText.empty ≠ DbText.jsonOf (Json.obj [])
    ∧ readBody DbText.empty = some (Json.obj []) := by
  refine ⟨?_, by simp, rfl⟩
  rcases h with h | h <;>
    simp [mkRow, bodyStrOf, h, jsTruthy, jsKeysCount]

/-- C4 witness: a bodyless GET, evaluated concretely. -/
theorem C4_empty_body_sentinel_witness :
    (({ method := "GET", originalUrl := "/", path := "/", headers := []
      , body := none } : Request).body = none
      ∨ ({ method := "GET", originalUrl := "/", path := "/", headers := []
         , body := none } : Request).body = some (Json.obj []))
    ∧ (mkRow { method := "GET", originalUrl := "/", path := "/"
             , headers := [], body := none } "T").body = DbText.empty
    ∧ DbText.empty ≠ DbText.jsonOf (Json.obj [])
    ∧ readBody DbText.empty = some (Json.obj []) :=
  ⟨Or.inl rfl,
   C4_empty_body_sentinel
     { method := "GET", originalUrl := "/", path := "/", headers := []
     , body := none } "T" (Or.inl rfl)⟩

/-- C7 counterexample: with one well-formed row and one row whose body
text is not JSON, the machine-readable /logs handler produces no
response at all — the well-formed row is not served, refuting the claim
that a re-parse failure is only a per-record error; alone, the
well-formed row would have been served. -/
theorem C7_per_record_error_counterexample :
    getLogsJson (.ok [okRow, corruptRow]) = none
    ∧ getLogsJson (.ok [okRow])
        = some ⟨200, "application/json",
            .jsonRows [{ method := "GET", url := some (.str "/b")
                       , headers := Json.obj [], body := Json.obj []
                       , timestamp := "t2" }]⟩ :=
  ⟨rfl, rfl⟩

/-- C7 amended: in machine-readable mode, a stored record whose
serialized headers or body fails to re-parse aborts the whole listing:
the handler throws while mapping and no response is produced (a
whole-response failure, not a per-record one). -/
theorem C7_reparse_failure_aborts_listing (rows : List Row)
    (h : ∃ r ∈ rows, mapRow r = none) :
    getLogsJson (.ok rows) = none := by
  unfold getLogsJson
  dsimp only
  rw [mapRows_none_of_mem rows h]

/-- C7 amended witness: the corrupted row alone. -/
theorem C7_reparse_failure_aborts_listing_witness :
    (∃ r ∈ [corruptRow], mapRow r = none)
    ∧ getLogsJson (.ok [corruptRow]) = none :=
  ⟨⟨corruptRow, by simp, rfl⟩,
   C7_reparse_failure_aborts_listing [corruptRow]
     ⟨corruptRow, by simp, rfl⟩⟩

/-- C10: every record either producer writes has headers text that is
the serialization of a mapping — the middleware stores the serialized
request header mapping (never the empty string) and the channel handler
stores the serialized empty mapping — so re-parsing the headers of any
record this program wrote succeeds. -/
theorem C10_headers_always_reparse :
    (∀ (req : Request) (now : String),
        (mkRow req now).headers = DbText.jsonOf (Json.obj req.headers)
        ∧ (mkRow req now).headers ≠ DbText.empty
        ∧ jsonParse (mkRow req now).headers = some (Json.obj req.headers))
    ∧ (∀ (m : DbText) (now : String) (st : Store),
        (wsOnMessage m now st).fst.rows = st.rows
        ∨ ∃ row, (wsOnMessage m now st).fst.rows
              = st.rows ++ [(st.nextId, row)]
            ∧ row.headers = DbText.jsonOf (Json.obj [])
            ∧ jsonParse row.headers = some (Json.obj [])) := by
  constructor
  · intro req now
    exact ⟨rfl, by simp [mkRow], rfl⟩
  · intro m now st
    unfold wsOnMessage
    rcases hm : jsonParse m with _ | j
    · exact Or.inl rfl
    · dsimp only
      rcases hg : jsGetField j "type" with _ | v
      · exact Or.inl rfl
      · cases v with
        | str t =>
          dsimp only
          by_cases ht : t = "fingerprint"
          · subst ht
            rw [if_pos rfl]
            rcases hd : jsDestructureOrigin (jsGetField j "data")
              with e | ⟨origin, data⟩
            · exact Or.inl rfl
            · exact Or.inr ⟨_, rfl, rfl, rfl⟩
          · rw [if_neg ht]
            exact Or.inl rfl
        | null => exact Or.inl rfl
        | bool b => exact Or.inl rfl
        | num n => exact Or.inl rfl
        | arr items => exact Or.inl rfl
        | obj fs => exact Or.inl rfl

end Chatsite
